import Mathlib

/-!
Verification of the code-classification engine of the valescooil admin
backend (`CodeService` in the coupon-code service module).

Strings are modelled as `List Char` (`Str`).  JavaScript string operations
are embedded over that type: `trim` drops surrounding whitespace,
`toUpperCase` is ASCII uppercasing (`Char.toUpper`), the global hyphen-replace
is a filter, `includes` is `includesL`.  The TypeORM repository calls are
embedded as pure functions over an explicit state (`St`) holding the code,
winner, gift and user tables; `findAndCount` filters the code table by the
assembled `where` condition, sorts by the requested order, and returns the
requested page together with the unpaginated match count.  `Like` and `In`
where-clauses are modelled as case-sensitive substring containment and
exact string-equality membership, which is the comparison semantics the
specification ascribes to them.
-/

abbrev Str := List Char

/-- Model of JavaScript `needle` being a prefix of a string. -/
def startsWithL : Str → Str → Bool
  | [], _ => true
  | _ :: _, [] => false
  | a :: as, b :: bs => a == b && startsWithL as bs

/-- Model of JavaScript `hay.includes(needle)`: substring containment. -/
def includesL (needle : Str) : Str → Bool
  | [] => needle.isEmpty
  | c :: t => startsWithL needle (c :: t) || includesL needle t

/-- Model of JavaScript `s.trim()`: drop surrounding whitespace. -/
def trimL (s : Str) : Str :=
  ((s.dropWhile Char.isWhitespace).reverse.dropWhile Char.isWhitespace).reverse

/-- Model of JavaScript `s.toUpperCase()` on ASCII letters. -/
def toUpperL (s : Str) : Str := s.map Char.toUpper

/-- Model of the JavaScript global hyphen-replace on `s`: remove every hyphen. -/
def stripHyphens (s : Str) : Str := s.filter (fun c => c != '-')

/-- The normalizer, from
`norm`: take the string (empty when null), trim it, uppercase it, and remove every hyphen. -/
def norm (s : Str) : Str := stripHyphens (toUpperL (trimL s))

/-- Hyphen-insertion step shared by the classifier views and the month
lookup: when `normalized` has exactly 10 characters produce
`slice(0, 6) ++ "-" ++ slice(6)`, otherwise keep `normalized` unchanged. -/
def withHyphen (normalized : Str) : Str :=
  if normalized.length = 10 then normalized.take 6 ++ '-' :: normalized.drop 6
  else normalized

/-- The four literal spellings pushed for one stored winner value `code`:
the raw value, the hyphenated form, the normalized form, and the raw value with hyphens removed, in push order. -/
def variantsOf (code : Str) : List Str :=
  [code, withHyphen (norm code), norm code, stripHyphens code]

/-- The full filter list built from all stored winner values (the loop at
the head of each classifier view). -/
def winnerValueFilters (winnerValues : List Str) : List Str :=
  winnerValues.flatMap variantsOf

/-- Row of the `Code` table as selected by the classifier queries. -/
structure CodeRec where
  rid : Nat
  id : Nat
  value : Str
  isUsed : Bool
  usedAt : Option Nat
  deletedAt : Option Nat
  month : Option Str
  giftId : Option Nat
  usedById : Option Nat
deriving DecidableEq

/-- Row of the `Winner` table (only `value` is selected by the views). -/
structure WinnerRec where
  value : Str
  deletedAt : Option Nat
deriving DecidableEq

/-- Row of the `Gift` table (never touched by the classifier views). -/
structure GiftRec where
  gid : Nat
  name : Str
deriving DecidableEq

/-- Row of the `User` table (never touched by the classifier views). -/
structure UserRec where
  uid : Nat
  tgId : Str
deriving DecidableEq

/-- Persisted state reachable through the data source. -/
structure St where
  codes : List CodeRec
  winners : List WinnerRec
  gifts : List GiftRec
  users : List UserRec
deriving DecidableEq

/-- The `PagingDto` query object handed to each view. -/
structure Paging where
  search : Option Str
  page : Option Nat
  limit : Option Nat
deriving DecidableEq

/-- Value conditions a view can place on the `value` column of its
`where` object. -/
inductive ValueCond where
  | anyV : ValueCond
  | isNullV : ValueCond
  | inList : List Str → ValueCond
  | notInList : List Str → ValueCond
  | like : Str → ValueCond
deriving DecidableEq

/-- Evaluation of a value condition against a (non-null) stored value:
`anyV` is the absent key, `isNullV` is `value = null` (never true for a
stored string), `inList`/`notInList` are exact string-equality membership,
`like` with surrounding wildcards is substring containment. -/
def evalCond : ValueCond → Str → Bool
  | ValueCond.anyV, _ => true
  | ValueCond.isNullV, _ => false
  | ValueCond.inList l, v => decide (v ∈ l)
  | ValueCond.notInList l, v => !(decide (v ∈ l))
  | ValueCond.like s, v => includesL s v

/-- Value condition assembled by `getWinners` and `getWinnerCodes`: start
from membership in the filter list (`value = null` when the list is
empty); a truthy search term first overwrites it with the substring
condition and then, when the filter list is non-empty, overwrites that
with membership in the narrowed filter list. -/
def memberCond (filters : List Str) (search : Option Str) : ValueCond :=
  let c0 := if filters.length > 0 then ValueCond.inList filters else ValueCond.isNullV
  match search with
  | none => c0
  | some s =>
    if s.isEmpty then c0
    else if filters.length > 0 then
      ValueCond.inList (filters.filter (fun v => includesL s v))
    else ValueCond.like s

/-- Value condition assembled by `getLosers` and `getNonWinnerCodes`:
non-membership in the filter list when it is non-empty (no condition
otherwise); a truthy search term first overwrites it with the substring
condition and then, when the filter list is non-empty, overwrites that
with non-membership in the full filter list again. -/
def nonMemberCond (filters : List Str) (search : Option Str) : ValueCond :=
  let c0 := if filters.length > 0 then ValueCond.notInList filters else ValueCond.anyV
  match search with
  | none => c0
  | some s =>
    if s.isEmpty then c0
    else if filters.length > 0 then ValueCond.notInList filters
    else ValueCond.like s

/-- Ordering `{ usedAt: 'DESC' }` used by `getWinners`/`getLosers`: most
recent redemption timestamp first (absent timestamps ordered last). -/
def usedDesc (a b : CodeRec) : Prop := b.usedAt.getD 0 ≤ a.usedAt.getD 0

instance : DecidableRel usedDesc :=
  fun a b => Nat.decLe (b.usedAt.getD 0) (a.usedAt.getD 0)

instance : IsTotal CodeRec usedDesc :=
  ⟨fun a b => Nat.le_total (b.usedAt.getD 0) (a.usedAt.getD 0)⟩

instance : IsTrans CodeRec usedDesc :=
  ⟨fun _ _ _ h1 h2 => Nat.le_trans h2 h1⟩

/-- Ordering `{ id: 'ASC' }` used by `getWinnerCodes`/`getNonWinnerCodes`:
ascending identifier. -/
def idAsc (a b : CodeRec) : Prop := a.id ≤ b.id

instance : DecidableRel idAsc := fun a b => Nat.decLe a.id b.id

instance : IsTotal CodeRec idAsc := ⟨fun a b => Nat.le_total a.id b.id⟩

instance : IsTrans CodeRec idAsc := ⟨fun _ _ _ h1 h2 => Nat.le_trans h1 h2⟩

/-- TypeORM `findAndCount`: filter the table by the `where` condition,
sort by the requested order, return the page `skip`/`take` selects, and,
as second component, the match count before pagination. -/
def findAndCount (rows : List CodeRec) (keep : CodeRec → Bool)
    (r : CodeRec → CodeRec → Prop) [DecidableRel r] (takeN skipN : Nat) :
    List CodeRec × Nat :=
  let matched := rows.filter keep
  (((matched.insertionSort r).drop skipN).take takeN, matched.length)

/-- Winner values fetched by each view:
`winnerRepository.find({ where: { deletedAt: IsNull() }, select: { value: true } })`. -/
def liveWinnerValues (st : St) : List Str :=
  (st.winners.filter (fun w => w.deletedAt.isNone)).map (fun w => w.value)

/-- Result of one view call: the `{ data, total }` payload, the state of
the persisted tables after the call, and the query object after the call
(the view mutates it in place). -/
structure QueryRes where
  data : List CodeRec
  total : Nat
  stAfter : St
  qAfter : Paging
deriving DecidableEq

/-- Row predicate of `getWinners`:
`{ deletedAt: IsNull(), isUsed: true, value: <memberCond> }`. -/
def winnersKeep (st : St) (q : Paging) : CodeRec → Bool :=
  fun r => r.deletedAt.isNone && r.isUsed &&
    evalCond (memberCond (winnerValueFilters (liveWinnerValues st)) q.search) r.value

/-- Row predicate of `getLosers`:
`{ deletedAt: IsNull(), isUsed: true, value: <nonMemberCond> }`. -/
def losersKeep (st : St) (q : Paging) : CodeRec → Bool :=
  fun r => r.deletedAt.isNone && r.isUsed &&
    evalCond (nonMemberCond (winnerValueFilters (liveWinnerValues st)) q.search) r.value

/-- Row predicate of `getWinnerCodes`:
`{ deletedAt: IsNull(), value: <memberCond> }` (no redemption filter). -/
def winnerCodesKeep (st : St) (q : Paging) : CodeRec → Bool :=
  fun r => r.deletedAt.isNone &&
    evalCond (memberCond (winnerValueFilters (liveWinnerValues st)) q.search) r.value

/-- Row predicate of `getNonWinnerCodes`:
`{ deletedAt: IsNull(), value: <nonMemberCond> }` (no redemption filter). -/
def nonWinnerCodesKeep (st : St) (q : Paging) : CodeRec → Bool :=
  fun r => r.deletedAt.isNone &&
    evalCond (nonMemberCond (winnerValueFilters (liveWinnerValues st)) q.search) r.value

/-- Model of `CodeService.getWinners`. -/
def getWinnersM (st : St) (q : Paging) : QueryRes :=
  let limit := q.limit.getD 10
  let page := q.page.getD 1
  let res := findAndCount st.codes (winnersKeep st q) usedDesc limit ((page - 1) * limit)
  { data := res.1, total := res.2, stAfter := st,
    qAfter := { search := q.search, page := some page, limit := some limit } }

/-- Model of `CodeService.getLosers`. -/
def getLosersM (st : St) (q : Paging) : QueryRes :=
  let limit := q.limit.getD 10
  let page := q.page.getD 1
  let res := findAndCount st.codes (losersKeep st q) usedDesc limit ((page - 1) * limit)
  { data := res.1, total := res.2, stAfter := st,
    qAfter := { search := q.search, page := some page, limit := some limit } }

/-- Model of `CodeService.getWinnerCodes`. -/
def getWinnerCodesM (st : St) (q : Paging) : QueryRes :=
  let limit := q.limit.getD 10
  let page := q.page.getD 1
  let res := findAndCount st.codes (winnerCodesKeep st q) idAsc limit ((page - 1) * limit)
  { data := res.1, total := res.2, stAfter := st,
    qAfter := { search := q.search, page := some page, limit := some limit } }

/-- Model of `CodeService.getNonWinnerCodes`. -/
def getNonWinnerCodesM (st : St) (q : Paging) : QueryRes :=
  let limit := q.limit.getD 10
  let page := q.page.getD 1
  let res := findAndCount st.codes (nonWinnerCodesKeep st q) idAsc limit ((page - 1) * limit)
  { data := res.1, total := res.2, stAfter := st,
    qAfter := { search := q.search, page := some page, limit := some limit } }

/-- Payload of `getCodeMonth`. -/
structure MonthRes where
  value : Str
  month : Option Str
deriving DecidableEq

/-- JavaScript `code.month || null`: an absent or empty month becomes null. -/
def monthOrNull (m : Option Str) : Option Str :=
  match m with
  | none => none
  | some s => if s.isEmpty then none else some s

/-- Model of `CodeService.getCodeMonth`: look up the first non-deleted
code record whose stored value equals any of the four format variants of
the queried value; `none` models the thrown `CodeException.NotFound`. -/
def getCodeMonthM (st : St) (value : Str) : Option MonthRes :=
  let cands := variantsOf value
  match st.codes.find? (fun r => r.deletedAt.isNone && decide (r.value ∈ cands)) with
  | none => none
  | some r => some { value := r.value, month := monthOrNull r.month }

/-- Redeemed, non-deleted code record used in the C2 counterexample. -/
def recCCC : CodeRec :=
  { rid := 1, id := 1, value := "CCC".data, isUsed := true, usedAt := some 3,
    deletedAt := none, month := none, giftId := none, usedById := none }

/-- State for the C2 counterexample: one stored winner `"AAA"` and one
redeemed code `"CCC"`. -/
def stC2 : St :=
  { codes := [recCCC], winners := [{ value := "AAA".data, deletedAt := none }],
    gifts := [], users := [] }

/-- State for the C2 witness: one stored winner `"AB-C"` and one redeemed
code `"CCC"`. -/
def stC2w : St :=
  { codes := [recCCC], winners := [{ value := "AB-C".data, deletedAt := none }],
    gifts := [], users := [] }

/-- Query for the C2 witness: search term `"AB"`. -/
def qC2w : Paging := { search := some ("AB".data), page := none, limit := none }

/-- Redeemed, non-deleted code record `"ABC"` used for C3. -/
def recABC : CodeRec :=
  { rid := 1, id := 1, value := "ABC".data, isUsed := true, usedAt := some 5,
    deletedAt := none, month := none, giftId := none, usedById := none }

/-- State for C3: the winners table is empty and one redeemed code exists. -/
def stC3 : St := { codes := [recABC], winners := [], gifts := [], users := [] }

/-- Redeemed code record spelled `"ab-c"` for the C7 counterexample. -/
def recAbHc : CodeRec :=
  { rid := 1, id := 1, value := "ab-c".data, isUsed := true, usedAt := some 2,
    deletedAt := none, month := none, giftId := none, usedById := none }

/-- Redeemed code record spelled `"a-bc"` for the C7 counterexample. -/
def recAHbc : CodeRec :=
  { rid := 2, id := 2, value := "a-bc".data, isUsed := true, usedAt := some 1,
    deletedAt := none, month := none, giftId := none, usedById := none }

/-- C7 state with both duplicate winner entries `"ab-c"` and `"a-bc"`. -/
def stC7both : St :=
  { codes := [recAbHc, recAHbc],
    winners := [{ value := "ab-c".data, deletedAt := none },
                { value := "a-bc".data, deletedAt := none }],
    gifts := [], users := [] }

/-- C7 state with only the winner entry `"ab-c"`. -/
def stC7fst : St :=
  { codes := [recAbHc, recAHbc],
    winners := [{ value := "ab-c".data, deletedAt := none }],
    gifts := [], users := [] }

/-- C7 state with only the winner entry `"a-bc"`. -/
def stC7snd : St :=
  { codes := [recAbHc, recAHbc],
    winners := [{ value := "a-bc".data, deletedAt := none }],
    gifts := [], users := [] }

/-- Duplicate winner entry (already-normalized spelling) for the C7 witness. -/
def wABC : WinnerRec := { value := "ABC".data, deletedAt := none }

/-- Generic listing runner shared in shape by the four views: an optional
redemption requirement, a membership predicate on the stored value, and a
flag choosing the ascending-identifier order over the
most-recent-redemption-first order. -/
def listView (requireUsed : Bool) (keep : Str → Bool) (byId : Bool)
    (st : St) (q : Paging) : List CodeRec × Nat :=
  let limit := q.limit.getD 10
  let page := q.page.getD 1
  let keepR := fun (r : CodeRec) =>
    r.deletedAt.isNone && (!requireUsed || r.isUsed) && keep r.value
  if byId then findAndCount st.codes keepR idAsc limit ((page - 1) * limit)
  else findAndCount st.codes keepR usedDesc limit ((page - 1) * limit)

/-- Redeemed code record `"ABC"` for the C8 counterexample. -/
def recC8 : CodeRec :=
  { rid := 1, id := 1, value := "ABC".data, isUsed := true, usedAt := some 4,
    deletedAt := none, month := none, giftId := none, usedById := none }

/-- C8 counterexample state: stored winner `"ab-c"`, redeemed code `"ABC"`. -/
def stC8 : St :=
  { codes := [recC8], winners := [{ value := "ab-c".data, deletedAt := none }],
    gifts := [], users := [] }

/-- Non-deleted code record `"AB"` with month `"MAY"` for the C9 witness. -/
def recMay : CodeRec :=
  { rid := 1, id := 1, value := "AB".data, isUsed := false, usedAt := none,
    deletedAt := none, month := some ("MAY".data), giftId := none, usedById := none }

/-- State for the C9 witness. -/
def stC9 : St := { codes := [recMay], winners := [], gifts := [], users := [] }

theorem toNat_ofNat_valid (n : Nat) (h : n.isValidChar) : (Char.ofNat n).toNat = n := by
  simp [Char.ofNat, h, Char.ofNatAux, Char.toNat, UInt32.toNat]

theorem toUpper_toNat (c : Char) (h : c.toNat ≥ 97 ∧ c.toNat ≤ 122) :
    (Char.toUpper c).toNat = c.toNat - 32 := by
  have hv : (c.toNat - 32).isValidChar := by
    left
    have := h.2
    omega
  simp [Char.toUpper, h, toNat_ofNat_valid _ hv]

theorem toUpper_of_not_lower (c : Char) (h : ¬ (c.toNat ≥ 97 ∧ c.toNat ≤ 122)) :
    Char.toUpper c = c := by
  simp only [Char.toUpper]
  rw [if_neg h]

theorem toUpper_toUpper (c : Char) : Char.toUpper (Char.toUpper c) = Char.toUpper c := by
  by_cases h : c.toNat ≥ 97 ∧ c.toNat ≤ 122
  · have h1 := toUpper_toNat c h
    have h2 : ¬ ((Char.toUpper c).toNat ≥ 97 ∧ (Char.toUpper c).toNat ≤ 122) := by omega
    exact toUpper_of_not_lower _ h2
  · rw [toUpper_of_not_lower c h, toUpper_of_not_lower c h]

theorem toUpper_eq_hyphen_iff (c : Char) : Char.toUpper c = '-' ↔ c = '-' := by
  constructor
  · intro h
    by_cases hc : c.toNat ≥ 97 ∧ c.toNat ≤ 122
    · exfalso
      have h1 := toUpper_toNat c hc
      rw [h] at h1
      have h45 : ('-' : Char).toNat = 45 := by decide
      rw [h45] at h1
      omega
    · rw [toUpper_of_not_lower c hc] at h
      exact h
  · intro h
    subst h
    decide

theorem toUpper_bne_hyphen (c : Char) : (Char.toUpper c != '-') = (c != '-') := by
  by_cases h : c = '-'
  · subst h
    decide
  · have h2 : Char.toUpper c ≠ '-' := fun e => h ((toUpper_eq_hyphen_iff c).1 e)
    apply Bool.eq_iff_iff.mpr
    simp [h, h2]

theorem toUpperL_stripHyphens (s : Str) :
    toUpperL (stripHyphens s) = stripHyphens (toUpperL s) := by
  show (s.filter (fun c => c != '-')).map Char.toUpper =
    (s.map Char.toUpper).filter (fun c => c != '-')
  rw [List.filter_map]
  congr 1
  apply List.filter_congr
  intro c _
  simp only [Function.comp_apply]
  exact (toUpper_bne_hyphen c).symm

theorem toUpperL_toUpperL (s : Str) : toUpperL (toUpperL s) = toUpperL s := by
  show (s.map Char.toUpper).map Char.toUpper = s.map Char.toUpper
  rw [List.map_map]
  apply List.map_congr_left
  intro c _
  simp only [Function.comp_apply]
  exact toUpper_toUpper c

theorem stripHyphens_stripHyphens (s : Str) :
    stripHyphens (stripHyphens s) = stripHyphens s := by
  show (s.filter (fun c => c != '-')).filter (fun c => c != '-') =
    s.filter (fun c => c != '-')
  rw [List.filter_filter]
  apply List.filter_congr
  intro c _
  simp

/-- C5 counterexample: the claimed unconditional idempotence of the
normalizer fails at the input `"- a"`, whose normalization `" A"` keeps a
leading space (removing the hyphen exposes whitespace that was not
surrounding whitespace in the input), so a second normalization trims
further. -/
theorem C5_counterexample : norm (norm ("- a".data)) ≠ norm ("- a".data) := by
  decide

/-- C5 (amended): the normalizer is the pure total composition
trim-then-uppercase-then-remove-hyphens (that is its definition, so it
never fails), and it is idempotent on every string whose normalized form
is already free of surrounding whitespace; unconditional idempotence is
refuted by `C5_counterexample`. -/
theorem C5_norm_idem (s : Str) (h : trimL (norm s) = norm s) :
    norm (norm s) = norm s := by
  show stripHyphens (toUpperL (trimL (norm s))) = norm s
  rw [h]
  have h1 : toUpperL (norm s) = norm s := by
    show toUpperL (stripHyphens (toUpperL (trimL s))) = norm s
    rw [toUpperL_stripHyphens, toUpperL_toUpperL]
    rfl
  rw [h1]
  show stripHyphens (stripHyphens (toUpperL (trimL s))) = norm s
  rw [stripHyphens_stripHyphens]
  rfl

/-- C5 witness: the amended idempotence applied at `"a-b C"`. -/
theorem C5_witness :
    trimL (norm ("a-b C".data)) = norm ("a-b C".data) ∧
    norm (norm ("a-b C".data)) = norm ("a-b C".data) :=
  ⟨by decide, C5_norm_idem ("a-b C".data) (by decide)⟩

/-- C1 counterexample: the spec's own example fails on the code.  The
redeemed value `"ab12-cd3456"` (lowercase, hyphenated) normalizes to the
same canonical value as the stored winner `"AB12CD3456"` (uppercase,
unhyphenated), yet it is not an exact-string member of the variant set
built from that winner: the builder never generates lowercase variants. -/
theorem C1_counterexample :
    norm ("ab12-cd3456".data) = norm ("AB12CD3456".data) ∧
    ("ab12-cd3456".data) ∉ variantsOf ("AB12CD3456".data) := by
  decide

/-- C1 (amended): normalization-equality alone does not put a redeemed
value into the variant set; membership is guaranteed only when the
redeemed value additionally is in canonical shape, i.e. equals its own
normalized form (uppercase, unhyphenated) or the canonical hyphenated
rendering of that form.  A redeemed spelling outside those shapes (for
example lowercase hyphenated against an uppercase unhyphenated winner)
matches only if it happens to equal the stored raw value or its
hyphen-stripped rendering. -/
theorem C1_membership (w c : Str) (hn : norm c = norm w)
    (hc : c = norm c ∨ c = withHyphen (norm c)) : c ∈ variantsOf w := by
  rcases hc with h | h
  · rw [h, hn]
    simp [variantsOf]
  · rw [h, hn]
    simp [variantsOf]

/-- C1 witness: the canonical hyphenated spelling `"AB12CD-3456"` of the
stored winner `"ab12-cd3456"` is matched. -/
theorem C1_witness :
    norm ("AB12CD-3456".data) = norm ("ab12-cd3456".data) ∧
    ("AB12CD-3456".data) ∈ variantsOf ("ab12-cd3456".data) :=
  ⟨by decide,
   C1_membership ("ab12-cd3456".data) ("AB12CD-3456".data) (by decide)
     (Or.inr (by decide))⟩

/-- C4: for every winner value the generated variant list has exactly four
entries, and its membership is exactly: the original raw value, the
hyphenated variant when the normalized form has length 10, the normalized
value, and the raw value with hyphens stripped but not uppercased; no
further combinatorial variant occurs. -/
theorem C4_variant_set (w v : Str) :
    (v ∈ variantsOf w ↔
      (v = w ∨ ((norm w).length = 10 ∧ v = withHyphen (norm w)) ∨
        v = norm w ∨ v = stripHyphens w)) ∧
    (variantsOf w).length = 4 := by
  refine ⟨⟨?_, ?_⟩, rfl⟩
  · intro hv
    simp only [variantsOf, List.mem_cons, List.not_mem_nil, or_false] at hv
    rcases hv with h | h | h | h
    · exact Or.inl h
    · by_cases hl : (norm w).length = 10
      · exact Or.inr (Or.inl ⟨hl, h⟩)
      · rw [withHyphen, if_neg hl] at h
        exact Or.inr (Or.inr (Or.inl h))
    · exact Or.inr (Or.inr (Or.inl h))
    · exact Or.inr (Or.inr (Or.inr h))
  · intro hv
    rcases hv with h | ⟨_, h⟩ | h | h <;> subst h <;> simp [variantsOf]

/-- C6: when the normalized form of a winner value has exactly 10
characters the hyphenated variant is the first six characters, a hyphen,
then the last four; for any other normalized length the hyphenation step
returns the normalized form unchanged, so the variant set gains no extra
element from it (membership collapses to raw, normalized, and
hyphen-stripped raw). -/
theorem C6_hyphenation (c : Str) :
    ((norm c).length = 10 →
      withHyphen (norm c) = (norm c).take 6 ++ '-' :: (norm c).drop 6) ∧
    ((norm c).length ≠ 10 →
      withHyphen (norm c) = norm c ∧
      ∀ v, v ∈ variantsOf c ↔ (v = c ∨ v = norm c ∨ v = stripHyphens c)) := by
  constructor
  · intro h
    rw [withHyphen, if_pos h]
  · intro h
    have hw : withHyphen (norm c) = norm c := by rw [withHyphen, if_neg h]
    refine ⟨hw, ?_⟩
    intro v
    simp only [variantsOf, hw, List.mem_cons, List.not_mem_nil, or_false]
    tauto

/-- C6 witness: the hyphenation formula at the length-10 input
`"ab12-cd3456"` and the no-extra-variant collapse at the short input
`"ab-c"`. -/
theorem C6_witness :
    ((norm ("ab12-cd3456".data)).length = 10 ∧
      withHyphen (norm ("ab12-cd3456".data)) =
        (norm ("ab12-cd3456".data)).take 6 ++ '-' :: (norm ("ab12-cd3456".data)).drop 6) ∧
    ((norm ("ab-c".data)).length ≠ 10 ∧
      withHyphen (norm ("ab-c".data)) = norm ("ab-c".data)) :=
  ⟨⟨by decide, (C6_hyphenation ("ab12-cd3456".data)).1 (by decide)⟩,
   ⟨by decide, ((C6_hyphenation ("ab-c".data)).2 (by decide)).1⟩⟩

theorem mem_findAndCount_data (rows : List CodeRec) (keep : CodeRec → Bool)
    (r : CodeRec → CodeRec → Prop) [DecidableRel r] (takeN skipN : Nat)
    (x : CodeRec) (h : x ∈ (findAndCount rows keep r takeN skipN).1) :
    x ∈ rows ∧ keep x = true := by
  have h1 : x ∈ ((rows.filter keep).insertionSort r).drop skipN :=
    List.take_subset _ _ h
  have h2 : x ∈ (rows.filter keep).insertionSort r := List.drop_subset _ _ h1
  have h3 : x ∈ rows.filter keep := (List.perm_insertionSort r _).subset h2
  exact ⟨(List.mem_filter.mp h3).1, (List.mem_filter.mp h3).2⟩

/-- C2 counterexample: with a non-empty winner list and the search term
`"B"`, the Losers view returns the record `"CCC"` even though its value
does not contain the search term — the Losers view does not honour the
search term, contradicting the claim that the substring filter is
reapplied in all four views. -/
theorem C2_counterexample :
    (getLosersM stC2 { search := some ("B".data), page := none, limit := none }).data
      = [recCCC] ∧
    includesL ("B".data) recCCC.value = false := by
  decide

/-- C2 (amended): with a truthy search term and a non-empty winner filter
list, the Winners and Winner-codes views test membership in the variant
set narrowed to the variants containing the term (so every returned value
is a surviving variant and contains the term, and the views are empty
when no variant survives); the substring condition on the collection is
overwritten by that membership test rather than separately reapplied.
The Losers and Non-winner-codes views ignore the search term entirely:
they return exactly what they return without it. -/
theorem C2_search (st : St) (q : Paging) (s : Str)
    (hs : q.search = some s) (hne : s.isEmpty = false)
    (hf : winnerValueFilters (liveWinnerValues st) ≠ []) :
    (∀ x ∈ (getWinnersM st q).data,
        x.value ∈ (winnerValueFilters (liveWinnerValues st)).filter
          (fun v => includesL s v) ∧ includesL s x.value = true) ∧
    (∀ x ∈ (getWinnerCodesM st q).data,
        x.value ∈ (winnerValueFilters (liveWinnerValues st)).filter
          (fun v => includesL s v) ∧ includesL s x.value = true) ∧
    ((winnerValueFilters (liveWinnerValues st)).filter (fun v => includesL s v) = [] →
      (getWinnersM st q).data = [] ∧ (getWinnersM st q).total = 0 ∧
      (getWinnerCodesM st q).data = [] ∧ (getWinnerCodesM st q).total = 0) ∧
    ((getLosersM st q).data = (getLosersM st { q with search := none }).data ∧
      (getLosersM st q).total = (getLosersM st { q with search := none }).total) ∧
    ((getNonWinnerCodesM st q).data
        = (getNonWinnerCodesM st { q with search := none }).data ∧
      (getNonWinnerCodesM st q).total
        = (getNonWinnerCodesM st { q with search := none }).total) := by
  set F := winnerValueFilters (liveWinnerValues st) with hF
  have hflen : 0 < F.length := List.length_pos.mpr hf
  have hmc : memberCond F q.search
      = ValueCond.inList (F.filter (fun v => includesL s v)) := by
    rw [hs]
    simp [memberCond, hne, hflen]
  have hnc : nonMemberCond F q.search = ValueCond.notInList F := by
    rw [hs]
    simp [nonMemberCond, hne, hflen]
  have hncn : nonMemberCond F none = ValueCond.notInList F := by
    simp [nonMemberCond, hflen]
  refine ⟨?_, ?_, ?_, ?_, ?_⟩
  · intro x hx
    have h1 := mem_findAndCount_data _ _ _ _ _ x hx
    have h2 := h1.2
    rw [winnersKeep, ← hF, hmc] at h2
    simp only [evalCond, Bool.and_eq_true, decide_eq_true_eq] at h2
    refine ⟨h2.2, ?_⟩
    exact (List.mem_filter.mp h2.2).2
  · intro x hx
    have h1 := mem_findAndCount_data _ _ _ _ _ x hx
    have h2 := h1.2
    rw [winnerCodesKeep, ← hF, hmc] at h2
    simp only [evalCond, Bool.and_eq_true, decide_eq_true_eq] at h2
    refine ⟨h2.2, ?_⟩
    exact (List.mem_filter.mp h2.2).2
  · intro hnil
    have hkeep : ∀ x ∈ st.codes, winnersKeep st q x = false := by
      intro x _
      rw [winnersKeep, ← hF, hmc, hnil]
      simp [evalCond]
    have hkeep2 : ∀ x ∈ st.codes, winnerCodesKeep st q x = false := by
      intro x _
      rw [winnerCodesKeep, ← hF, hmc, hnil]
      simp [evalCond]
    have hfil : st.codes.filter (winnersKeep st q) = [] := by
      rw [List.filter_eq_nil_iff]
      intro a ha
      rw [hkeep a ha]
      simp
    have hfil2 : st.codes.filter (winnerCodesKeep st q) = [] := by
      rw [List.filter_eq_nil_iff]
      intro a ha
      rw [hkeep2 a ha]
      simp
    refine ⟨?_, ?_, ?_, ?_⟩
    · simp [getWinnersM, findAndCount, hfil, List.insertionSort]
    · simp [getWinnersM, findAndCount, hfil]
    · simp [getWinnerCodesM, findAndCount, hfil2, List.insertionSort]
    · simp [getWinnerCodesM, findAndCount, hfil2]
  · have hkeq : losersKeep st q = losersKeep st { q with search := none } := by
      funext x
      dsimp only [losersKeep]
      rw [← hF, hnc, hncn]
    constructor
    · dsimp only [getLosersM]
      rw [hkeq]
    · dsimp only [getLosersM]
      rw [hkeq]
  · have hkeq : nonWinnerCodesKeep st q
        = nonWinnerCodesKeep st { q with search := none } := by
      funext x
      dsimp only [nonWinnerCodesKeep]
      rw [← hF, hnc, hncn]
    constructor
    · dsimp only [getNonWinnerCodesM]
      rw [hkeq]
    · dsimp only [getNonWinnerCodesM]
      rw [hkeq]

/-- C2 witness: the amended search behaviour applied at a concrete state
with a non-empty winner list and the search term `"AB"`. -/
theorem C2_witness :
    (∀ x ∈ (getWinnersM stC2w qC2w).data,
        x.value ∈ (winnerValueFilters (liveWinnerValues stC2w)).filter
          (fun v => includesL ("AB".data) v) ∧ includesL ("AB".data) x.value = true) ∧
    (∀ x ∈ (getWinnerCodesM stC2w qC2w).data,
        x.value ∈ (winnerValueFilters (liveWinnerValues stC2w)).filter
          (fun v => includesL ("AB".data) v) ∧ includesL ("AB".data) x.value = true) ∧
    ((winnerValueFilters (liveWinnerValues stC2w)).filter
        (fun v => includesL ("AB".data) v) = [] →
      (getWinnersM stC2w qC2w).data = [] ∧ (getWinnersM stC2w qC2w).total = 0 ∧
      (getWinnerCodesM stC2w qC2w).data = [] ∧ (getWinnerCodesM stC2w qC2w).total = 0) ∧
    ((getLosersM stC2w qC2w).data
        = (getLosersM stC2w { qC2w with search := none }).data ∧
      (getLosersM stC2w qC2w).total
        = (getLosersM stC2w { qC2w with search := none }).total) ∧
    ((getNonWinnerCodesM stC2w qC2w).data
        = (getNonWinnerCodesM stC2w { qC2w with search := none }).data ∧
      (getNonWinnerCodesM stC2w qC2w).total
        = (getNonWinnerCodesM stC2w { qC2w with search := none }).total) :=
  C2_search stC2w qC2w ("AB".data) rfl (by decide) (by decide)

/-- C3: evaluation at the failing input.  With an empty winners table and
no search term the Winners view is empty and the Losers view returns the
collection, as the claim states; but with the search term `"A"` the
substring condition overwrites the `value = null` guard, so the Winners
and Winner-codes views return the used record `"ABC"` and total 1 instead
of the zero records and total 0 the claim requires for every query. -/
theorem C3_empty_winners_eval :
    (getWinnersM stC3 { search := none, page := none, limit := none }).data = [] ∧
    (getWinnersM stC3 { search := none, page := none, limit := none }).total = 0 ∧
    (getWinnerCodesM stC3 { search := none, page := none, limit := none }).total = 0 ∧
    (getLosersM stC3 { search := none, page := none, limit := none }).data = [recABC] ∧
    (getWinnersM stC3 { search := some ("A".data), page := none, limit := none }).data
      = [recABC] ∧
    (getWinnersM stC3 { search := some ("A".data), page := none, limit := none }).total
      = 1 ∧
    (getWinnerCodesM stC3 { search := some ("A".data), page := none, limit := none }).total
      = 1 := by
  decide

/-- C7 counterexample: the winner entries `"ab-c"` and `"a-bc"` normalize
to the same canonical value, yet classification with both entries marks
two codes as winners while classification with either single entry marks
only one — the result is not identical to having a single such entry,
because each raw spelling contributes its own variants. -/
theorem C7_counterexample :
    norm ("ab-c".data) = norm ("a-bc".data) ∧
    (getWinnersM stC7both { search := none, page := none, limit := none }).total = 2 ∧
    (getWinnersM stC7fst { search := none, page := none, limit := none }).total = 1 ∧
    (getWinnersM stC7snd { search := none, page := none, limit := none }).total = 1 := by
  decide

/-- C7 (amended): no double counting occurs.  Membership is tested with
set semantics over the filter list, so adding a further live winner entry
whose four variants are all already present in the filter list — in
particular an exact duplicate, or any respelling whose variants add
nothing new — leaves the data and the total of all four views unchanged;
each matching record keeps appearing exactly once.  (Identity with a
single entry in general is refuted by `C7_counterexample`: a duplicate in
a different raw spelling can contribute new variants.) -/
theorem C7_dup_winner (st : St) (q : Paging) (w : WinnerRec)
    (hw : w.deletedAt = none)
    (hsub : ∀ v ∈ variantsOf w.value, v ∈ winnerValueFilters (liveWinnerValues st)) :
    (getWinnersM { st with winners := w :: st.winners } q).data
      = (getWinnersM st q).data ∧
    (getWinnersM { st with winners := w :: st.winners } q).total
      = (getWinnersM st q).total ∧
    (getLosersM { st with winners := w :: st.winners } q).data
      = (getLosersM st q).data ∧
    (getLosersM { st with winners := w :: st.winners } q).total
      = (getLosersM st q).total ∧
    (getWinnerCodesM { st with winners := w :: st.winners } q).data
      = (getWinnerCodesM st q).data ∧
    (getWinnerCodesM { st with winners := w :: st.winners } q).total
      = (getWinnerCodesM st q).total ∧
    (getNonWinnerCodesM { st with winners := w :: st.winners } q).data
      = (getNonWinnerCodesM st q).data ∧
    (getNonWinnerCodesM { st with winners := w :: st.winners } q).total
      = (getNonWinnerCodesM st q).total := by
  have hlive : liveWinnerValues { st with winners := w :: st.winners }
      = w.value :: liveWinnerValues st := by
    simp [liveWinnerValues, List.filter_cons, hw]
  have hFval : winnerValueFilters (liveWinnerValues { st with winners := w :: st.winners })
      = variantsOf w.value ++ winnerValueFilters (liveWinnerValues st) := by
    rw [hlive, winnerValueFilters, List.flatMap_cons]
    rfl
  have hmemiff : ∀ v : Str,
      (v ∈ winnerValueFilters (liveWinnerValues { st with winners := w :: st.winners }))
        ↔ v ∈ winnerValueFilters (liveWinnerValues st) := by
    intro v
    rw [hFval]
    constructor
    · intro hv
      rcases List.mem_append.mp hv with h | h
      · exact hsub v h
      · exact h
    · intro hv
      exact List.mem_append.mpr (Or.inr hv)
  have hfiltiff : ∀ (p : Str → Bool) (v : Str),
      (v ∈ (winnerValueFilters
          (liveWinnerValues { st with winners := w :: st.winners })).filter p)
        ↔ v ∈ (winnerValueFilters (liveWinnerValues st)).filter p := by
    intro p v
    rw [List.mem_filter, List.mem_filter, hmemiff v]
  have hFne : winnerValueFilters (liveWinnerValues st) ≠ [] := by
    have hv : w.value ∈ variantsOf w.value := by simp [variantsOf]
    exact List.ne_nil_of_mem (hsub _ hv)
  have hF'ne : winnerValueFilters
      (liveWinnerValues { st with winners := w :: st.winners }) ≠ [] := by
    rw [hFval]
    simp [variantsOf]
  have hlen : 0 < (winnerValueFilters (liveWinnerValues st)).length :=
    List.length_pos.mpr hFne
  have hlen' : 0 < (winnerValueFilters
      (liveWinnerValues { st with winners := w :: st.winners })).length :=
    List.length_pos.mpr hF'ne
  have hmc : ∀ v, evalCond (memberCond (winnerValueFilters
        (liveWinnerValues { st with winners := w :: st.winners })) q.search) v
      = evalCond (memberCond (winnerValueFilters (liveWinnerValues st)) q.search) v := by
    intro v
    cases hqs : q.search with
    | none =>
      simp only [memberCond, if_pos hlen, if_pos hlen', evalCond]
      exact decide_eq_decide.mpr (hmemiff v)
    | some s =>
      cases hse : s.isEmpty with
      | true =>
        simp only [memberCond, hse, if_pos, if_pos hlen, if_pos hlen', evalCond]
        exact decide_eq_decide.mpr (hmemiff v)
      | false =>
        simp only [memberCond, hse, Bool.false_eq_true, if_neg, if_pos hlen,
          if_pos hlen', evalCond]
        exact decide_eq_decide.mpr (hfiltiff _ v)
  have hnc : ∀ v, evalCond (nonMemberCond (winnerValueFilters
        (liveWinnerValues { st with winners := w :: st.winners })) q.search) v
      = evalCond (nonMemberCond (winnerValueFilters (liveWinnerValues st)) q.search) v := by
    intro v
    cases hqs : q.search with
    | none =>
      simp only [nonMemberCond, if_pos hlen, if_pos hlen', evalCond]
      rw [decide_eq_decide.mpr (hmemiff v)]
    | some s =>
      cases hse : s.isEmpty with
      | true =>
        simp only [nonMemberCond, hse, if_pos, if_pos hlen, if_pos hlen', evalCond]
        rw [decide_eq_decide.mpr (hmemiff v)]
      | false =>
        simp only [nonMemberCond, hse, Bool.false_eq_true, ite_self, if_pos hlen,
          if_pos hlen', evalCond]
        rw [decide_eq_decide.mpr (hmemiff v)]
  have hkW : ∀ x ∈ st.codes,
      winnersKeep { st with winners := w :: st.winners } q x = winnersKeep st q x := by
    intro x _
    dsimp only [winnersKeep]
    rw [hmc x.value]
  have hkL : ∀ x ∈ st.codes,
      losersKeep { st with winners := w :: st.winners } q x = losersKeep st q x := by
    intro x _
    dsimp only [losersKeep]
    rw [hnc x.value]
  have hkWC : ∀ x ∈ st.codes,
      winnerCodesKeep { st with winners := w :: st.winners } q x
        = winnerCodesKeep st q x := by
    intro x _
    dsimp only [winnerCodesKeep]
    rw [hmc x.value]
  have hkNWC : ∀ x ∈ st.codes,
      nonWinnerCodesKeep { st with winners := w :: st.winners } q x
        = nonWinnerCodesKeep st q x := by
    intro x _
    dsimp only [nonWinnerCodesKeep]
    rw [hnc x.value]
  refine ⟨?_, ?_, ?_, ?_, ?_, ?_, ?_, ?_⟩
  · dsimp only [getWinnersM, findAndCount]
    rw [List.filter_congr hkW]
  · dsimp only [getWinnersM, findAndCount]
    rw [List.filter_congr hkW]
  · dsimp only [getLosersM, findAndCount]
    rw [List.filter_congr hkL]
  · dsimp only [getLosersM, findAndCount]
    rw [List.filter_congr hkL]
  · dsimp only [getWinnerCodesM, findAndCount]
    rw [List.filter_congr hkWC]
  · dsimp only [getWinnerCodesM, findAndCount]
    rw [List.filter_congr hkWC]
  · dsimp only [getNonWinnerCodesM, findAndCount]
    rw [List.filter_congr hkNWC]
  · dsimp only [getNonWinnerCodesM, findAndCount]
    rw [List.filter_congr hkNWC]

/-- C7 witness: adding the duplicate winner `"ABC"` — whose variants are
all already generated by the stored entry `"ab-c"` — changes no view. -/
theorem C7_witness :
    (getWinnersM { stC7fst with winners := wABC :: stC7fst.winners }
        { search := none, page := none, limit := none }).data
      = (getWinnersM stC7fst { search := none, page := none, limit := none }).data ∧
    (getWinnersM { stC7fst with winners := wABC :: stC7fst.winners }
        { search := none, page := none, limit := none }).total
      = (getWinnersM stC7fst { search := none, page := none, limit := none }).total ∧
    (getLosersM { stC7fst with winners := wABC :: stC7fst.winners }
        { search := none, page := none, limit := none }).data
      = (getLosersM stC7fst { search := none, page := none, limit := none }).data ∧
    (getLosersM { stC7fst with winners := wABC :: stC7fst.winners }
        { search := none, page := none, limit := none }).total
      = (getLosersM stC7fst { search := none, page := none, limit := none }).total ∧
    (getWinnerCodesM { stC7fst with winners := wABC :: stC7fst.winners }
        { search := none, page := none, limit := none }).data
      = (getWinnerCodesM stC7fst { search := none, page := none, limit := none }).data ∧
    (getWinnerCodesM { stC7fst with winners := wABC :: stC7fst.winners }
        { search := none, page := none, limit := none }).total
      = (getWinnerCodesM stC7fst { search := none, page := none, limit := none }).total ∧
    (getNonWinnerCodesM { stC7fst with winners := wABC :: stC7fst.winners }
        { search := none, page := none, limit := none }).data
      = (getNonWinnerCodesM stC7fst { search := none, page := none, limit := none }).data ∧
    (getNonWinnerCodesM { stC7fst with winners := wABC :: stC7fst.winners }
        { search := none, page := none, limit := none }).total
      = (getNonWinnerCodesM stC7fst { search := none, page := none, limit := none }).total :=
  C7_dup_winner stC7fst { search := none, page := none, limit := none } wABC rfl
    (by decide)

/-- C8 counterexample: with the search term `"b"`, the record `"ABC"` is
redeemed and non-deleted yet appears in neither the Winners view (its
value is missing from the narrowed variant set) nor the Losers view (its
value is in the full variant set) — so the two predicates are not mere
membership negations of each other, contradicting the claim that within
each pair the membership predicate is the only difference. -/
theorem C8_counterexample :
    recC8.isUsed = true ∧ recC8.deletedAt = none ∧ recC8 ∈ stC8.codes ∧
    (getWinnersM stC8 { search := some ("b".data), page := none, limit := none }).data
      = [] ∧
    (getLosersM stC8 { search := some ("b".data), page := none, limit := none }).data
      = [] := by
  decide

/-- C8 (amended): when no search term is present, each of the four views
equals the generic runner: Winners and Losers require redemption and
order by most recent redemption first, Winner-codes and Non-winner-codes
take codes regardless of redemption status and order by ascending
identifier, and within each pair the only difference is the membership
predicate (value in the winner-variant filter list versus not in it).
With a search term present the positive and negative predicates are not
complementary (`C8_counterexample`). -/
theorem C8_views (st : St) (q : Paging) (hq : q.search = none) :
    ((getWinnersM st q).data, (getWinnersM st q).total)
      = listView true
          (fun v => decide (v ∈ winnerValueFilters (liveWinnerValues st))) false st q ∧
    ((getLosersM st q).data, (getLosersM st q).total)
      = listView true
          (fun v => !decide (v ∈ winnerValueFilters (liveWinnerValues st))) false st q ∧
    ((getWinnerCodesM st q).data, (getWinnerCodesM st q).total)
      = listView false
          (fun v => decide (v ∈ winnerValueFilters (liveWinnerValues st))) true st q ∧
    ((getNonWinnerCodesM st q).data, (getNonWinnerCodesM st q).total)
      = listView false
          (fun v => !decide (v ∈ winnerValueFilters (liveWinnerValues st))) true st q := by
  have hmc : ∀ v, evalCond (memberCond (winnerValueFilters (liveWinnerValues st)) q.search) v
      = decide (v ∈ winnerValueFilters (liveWinnerValues st)) := by
    intro v
    rw [hq]
    by_cases hl : 0 < (winnerValueFilters (liveWinnerValues st)).length
    · simp only [memberCond, if_pos hl, evalCond]
    · have hnil : winnerValueFilters (liveWinnerValues st) = [] :=
        List.length_eq_zero.mp (Nat.eq_zero_of_not_pos hl)
      simp only [memberCond, if_neg hl, evalCond, hnil]
      simp
  have hnc : ∀ v, evalCond (nonMemberCond (winnerValueFilters (liveWinnerValues st)) q.search) v
      = !decide (v ∈ winnerValueFilters (liveWinnerValues st)) := by
    intro v
    rw [hq]
    by_cases hl : 0 < (winnerValueFilters (liveWinnerValues st)).length
    · simp only [nonMemberCond, if_pos hl, evalCond]
    · have hnil : winnerValueFilters (liveWinnerValues st) = [] :=
        List.length_eq_zero.mp (Nat.eq_zero_of_not_pos hl)
      simp only [nonMemberCond, if_neg hl, evalCond, hnil]
      simp
  refine ⟨?_, ?_, ?_, ?_⟩
  · have hfeq : st.codes.filter (winnersKeep st q)
        = st.codes.filter (fun r => r.deletedAt.isNone && (!true || r.isUsed) &&
            decide (r.value ∈ winnerValueFilters (liveWinnerValues st))) := by
      apply List.filter_congr
      intro x _
      dsimp only [winnersKeep]
      rw [hmc x.value]
      simp
    dsimp only [getWinnersM, listView, findAndCount]
    rw [hfeq]
    rfl
  · have hfeq : st.codes.filter (losersKeep st q)
        = st.codes.filter (fun r => r.deletedAt.isNone && (!true || r.isUsed) &&
            !decide (r.value ∈ winnerValueFilters (liveWinnerValues st))) := by
      apply List.filter_congr
      intro x _
      dsimp only [losersKeep]
      rw [hnc x.value]
      simp
    dsimp only [getLosersM, listView, findAndCount]
    rw [hfeq]
    rfl
  · have hfeq : st.codes.filter (winnerCodesKeep st q)
        = st.codes.filter (fun r => r.deletedAt.isNone && (!false || r.isUsed) &&
            decide (r.value ∈ winnerValueFilters (liveWinnerValues st))) := by
      apply List.filter_congr
      intro x _
      dsimp only [winnerCodesKeep]
      rw [hmc x.value]
      simp [Bool.and_assoc]
    dsimp only [getWinnerCodesM, listView, findAndCount]
    rw [hfeq]
    rfl
  · have hfeq : st.codes.filter (nonWinnerCodesKeep st q)
        = st.codes.filter (fun r => r.deletedAt.isNone && (!false || r.isUsed) &&
            !decide (r.value ∈ winnerValueFilters (liveWinnerValues st))) := by
      apply List.filter_congr
      intro x _
      dsimp only [nonWinnerCodesKeep]
      rw [hnc x.value]
      simp [Bool.and_assoc]
    dsimp only [getNonWinnerCodesM, listView, findAndCount]
    rw [hfeq]
    rfl

/-- C8 witness: the four view equalities applied at the concrete state
`stC8` with no search term. -/
theorem C8_witness :
    ((getWinnersM stC8 { search := none, page := none, limit := none }).data,
        (getWinnersM stC8 { search := none, page := none, limit := none }).total)
      = listView true
          (fun v => decide (v ∈ winnerValueFilters (liveWinnerValues stC8))) false stC8
          { search := none, page := none, limit := none } ∧
    ((getLosersM stC8 { search := none, page := none, limit := none }).data,
        (getLosersM stC8 { search := none, page := none, limit := none }).total)
      = listView true
          (fun v => !decide (v ∈ winnerValueFilters (liveWinnerValues stC8))) false stC8
          { search := none, page := none, limit := none } ∧
    ((getWinnerCodesM stC8 { search := none, page := none, limit := none }).data,
        (getWinnerCodesM stC8 { search := none, page := none, limit := none }).total)
      = listView false
          (fun v => decide (v ∈ winnerValueFilters (liveWinnerValues stC8))) true stC8
          { search := none, page := none, limit := none } ∧
    ((getNonWinnerCodesM stC8 { search := none, page := none, limit := none }).data,
        (getNonWinnerCodesM stC8 { search := none, page := none, limit := none }).total)
      = listView false
          (fun v => !decide (v ∈ winnerValueFilters (liveWinnerValues stC8))) true stC8
          { search := none, page := none, limit := none } :=
  C8_views stC8 { search := none, page := none, limit := none } rfl

/-- C9: the listing views are total functions of the state and query (the
model returns a result record for every input by construction), and the
single-code month lookup returns `none` — the modelled `NotFound`
exception — exactly when no non-deleted code record's stored value equals
one of the four format variants (raw, hyphenated, normalized,
hyphen-stripped) of the queried value; otherwise it returns the matched
record's stored value together with its month, an absent or empty month
reported as null. -/
theorem C9_month_lookup (st : St) (v : Str) :
    (getCodeMonthM st v = none ↔
      ∀ x ∈ st.codes, x.deletedAt = none → x.value ∉ variantsOf v) ∧
    (∀ res, getCodeMonthM st v = some res →
      ∃ x, x ∈ st.codes ∧ x.deletedAt = none ∧ x.value ∈ variantsOf v ∧
        res.value = x.value ∧ res.month = monthOrNull x.month) := by
  cases hfind : st.codes.find?
      (fun r => r.deletedAt.isNone && decide (r.value ∈ variantsOf v)) with
  | none =>
    have hnone : getCodeMonthM st v = none := by
      dsimp only [getCodeMonthM]
      rw [hfind]
    constructor
    · constructor
      · intro _ x hx hdel hv2
        apply List.find?_eq_none.mp hfind x hx
        rw [Bool.and_eq_true]
        exact ⟨by rw [hdel]; rfl, decide_eq_true hv2⟩
      · intro _
        exact hnone
    · intro res hres
      rw [hnone] at hres
      simp at hres
  | some r =>
    have hp := List.find?_some hfind
    have hmem := List.mem_of_find?_eq_some hfind
    rw [Bool.and_eq_true] at hp
    have hdel : r.deletedAt = none := Option.isNone_iff_eq_none.mp hp.1
    have hv : r.value ∈ variantsOf v := of_decide_eq_true hp.2
    have hsome : getCodeMonthM st v
        = some { value := r.value, month := monthOrNull r.month } := by
      dsimp only [getCodeMonthM]
      rw [hfind]
    constructor
    · constructor
      · intro h
        rw [hsome] at h
        simp at h
      · intro hall
        exact absurd hv (hall r hmem hdel)
    · intro res hres
      rw [hsome] at hres
      have h2 : MonthRes.mk r.value (monthOrNull r.month) = res := Option.some.inj hres
      subst h2
      exact ⟨r, hmem, hdel, hv, rfl, rfl⟩

/-- C9 witness: the month lookup at the lowercase query `"ab"` finds the
stored record `"AB"` and returns its month. -/
theorem C9_witness :
    ∃ x, x ∈ stC9.codes ∧ x.deletedAt = none ∧ x.value ∈ variantsOf ("ab".data) ∧
      ({ value := "AB".data, month := some ("MAY".data) } : MonthRes).value = x.value ∧
      ({ value := "AB".data, month := some ("MAY".data) } : MonthRes).month
        = monthOrNull x.month :=
  (C9_month_lookup stC9 ("ab".data)).2
    { value := "AB".data, month := some ("MAY".data) } (by decide)

/-- C10: each of the four view operations leaves all persisted state —
code, winner, gift and user tables — unchanged; its only mutation is on
the caller-supplied query object, whose limit field becomes 10 and page
field becomes 1 exactly when absent (present values are kept); the total
counts every matching row and the returned data is the page of size
`limit` starting at offset `(page - 1) * limit` of the ordered matches. -/
theorem C10_frame (st : St) (q : Paging) :
    ((getWinnersM st q).stAfter = st ∧
      (getWinnersM st q).qAfter
        = { search := q.search, page := some (q.page.getD 1),
            limit := some (q.limit.getD 10) } ∧
      (getWinnersM st q).total = (st.codes.filter (winnersKeep st q)).length ∧
      (getWinnersM st q).data
        = (((st.codes.filter (winnersKeep st q)).insertionSort usedDesc).drop
            ((q.page.getD 1 - 1) * q.limit.getD 10)).take (q.limit.getD 10)) ∧
    ((getLosersM st q).stAfter = st ∧
      (getLosersM st q).qAfter
        = { search := q.search, page := some (q.page.getD 1),
            limit := some (q.limit.getD 10) } ∧
      (getLosersM st q).total = (st.codes.filter (losersKeep st q)).length ∧
      (getLosersM st q).data
        = (((st.codes.filter (losersKeep st q)).insertionSort usedDesc).drop
            ((q.page.getD 1 - 1) * q.limit.getD 10)).take (q.limit.getD 10)) ∧
    ((getWinnerCodesM st q).stAfter = st ∧
      (getWinnerCodesM st q).qAfter
        = { search := q.search, page := some (q.page.getD 1),
            limit := some (q.limit.getD 10) } ∧
      (getWinnerCodesM st q).total = (st.codes.filter (winnerCodesKeep st q)).length ∧
      (getWinnerCodesM st q).data
        = (((st.codes.filter (winnerCodesKeep st q)).insertionSort idAsc).drop
            ((q.page.getD 1 - 1) * q.limit.getD 10)).take (q.limit.getD 10)) ∧
    ((getNonWinnerCodesM st q).stAfter = st ∧
      (getNonWinnerCodesM st q).qAfter
        = { search := q.search, page := some (q.page.getD 1),
            limit := some (q.limit.getD 10) } ∧
      (getNonWinnerCodesM st q).total
        = (st.codes.filter (nonWinnerCodesKeep st q)).length ∧
      (getNonWinnerCodesM st q).data
        = (((st.codes.filter (nonWinnerCodesKeep st q)).insertionSort idAsc).drop
            ((q.page.getD 1 - 1) * q.limit.getD 10)).take (q.limit.getD 10)) :=
  ⟨⟨rfl, rfl, rfl, rfl⟩, ⟨rfl, rfl, rfl, rfl⟩, ⟨rfl, rfl, rfl, rfl⟩,
    ⟨rfl, rfl, rfl, rfl⟩⟩
